import Mathlib

/-!
Formal model of the timestamp-planning core of `src/sas_timestamps.py`
(whose planning functions are byte-for-byte shared with
`src/SAS-TIMESTAMPS-V2.py`).

Modelling conventions:
* Python floats are modelled as exact rationals (`ℚ`); the source's
  `total += (code + 1) / scale` loop is the positional sum
  `Σ (code_i + 1) / BASE^(i+1)`, written below as a structural recursion.
* Python ints are `ℕ`/`ℤ`; the FNV mask `& 0xFFFFFFFF` becomes `% 2^32`.
* `datetime` instants are whole seconds since the Unix epoch (`ℤ`); every
  instant the planner produces has a zero microsecond field, and
  `_snap_even_second` is modelled on a (seconds, microseconds) pair.
* The host's local time zone (only used by `_anchor_local_datetime`) is a
  fixed UTC offset in seconds, passed explicitly.
-/

namespace Sas

/-- `CHARSET = tuple(" 0123456789ABCDEFGHIJKLMNOPQRSTUVWXYZ_-.")` -/
def CHARSET : List Char :=
  [' ', '0', '1', '2', '3', '4', '5', '6', '7', '8', '9',
   'A', 'B', 'C', 'D', 'E', 'F', 'G', 'H', 'I', 'J', 'K', 'L', 'M',
   'N', 'O', 'P', 'Q', 'R', 'S', 'T', 'U', 'V', 'W', 'X', 'Y', 'Z',
   '_', '-', '.']

/-- `BASE = len(CHARSET)` (= 40). -/
def BASE : ℕ := CHARSET.length

/-- `CHAR_INDEX.get(ch, BASE - 1)`: the index of `c` in `CHARSET`,
defaulting to the last index for characters outside the alphabet
(`List.indexOf` returns `CHARSET.length` when absent, so the `min` caps
exactly the missing case). -/
def charIndex (c : Char) : ℕ := min (CHARSET.indexOf c) (BASE - 1)

/-- The digit string actually encoded by `_lex_fraction`:
`s = payload.upper()`, truncated to `s[:128]`, each character mapped by
`CHAR_INDEX.get(ch, BASE - 1)`. -/
def lexDigits (payload : String) : List ℕ :=
  ((payload.data.map Char.toUpper).take 128).map charIndex

/-- The positional fraction `Σ (d_i + 1) / BASE^(i+1)` accumulated by the
loop in `_lex_fraction`, as an exact rational. -/
def fracOfDigits : List ℕ → ℚ
  | [] => 0
  | d :: rest => ((d : ℚ) + 1 + fracOfDigits rest) / 40

/-- `_lex_fraction(payload)`. -/
def lexFraction (payload : String) : ℚ := fracOfDigits (lexDigits payload)

/-- Lexicographic strict order on digit strings (the "fixed 40-symbol
alphabet ordering" of the spec, after case folding, truncation and
mapping of out-of-alphabet characters: exactly the data `_lex_fraction`
consumes). -/
def lexLt : List ℕ → List ℕ → Bool
  | [], [] => false
  | [], _ :: _ => true
  | _ :: _, [] => false
  | a :: as, b :: bs => if a < b then true else if b < a then false else lexLt as bs

/-- `UNPREFIXED_MAP` built from `UNPREFIXED_IN_CATEGORY_CSV`
(Python dicts preserve insertion order, hence an association list). -/
def UNPREFIXED_MAP : List (String × List String) :=
  [("APP_", ["OSDXMB", "XEBPLUS"]),
   ("APPS", []),
   ("PS1_", []),
   ("EMU_", []),
   ("GME_", []),
   ("DST_", []),
   ("DBG_", []),
   ("RAA_", ["RESTART", "POWEROFF"]),
   ("RTE_", ["NEUTRINO"]),
   ("SYS_", ["BOOT"]),
   ("ZZY_", ["EXPLOITS"]),
   ("ZZZ_", ["BM", "MATRIXTEAM", "OPL"])]

/-- Python `str.strip()`: drop leading and trailing whitespace. -/
def pyStrip (l : List Char) : List Char :=
  ((l.dropWhile Char.isWhitespace).reverse.dropWhile Char.isWhitespace).reverse

/-- `name.strip().upper()` (ASCII uppercasing; the names handled by the
rules are ASCII, where Python's and Lean's uppercasing agree). -/
def stripUpper (name : String) : String :=
  String.mk ((pyStrip name.data).map Char.toUpper)

/-- `_normalize_name_for_rules(name)`. -/
def normalizeNameForRules (name : String) : String :=
  let n := stripUpper name
  match UNPREFIXED_MAP.find? (fun kv => kv.2.contains n) with
  | some kv => if kv.1 = "APPS" then "APPS" else kv.1 ++ n
  | none =>
    if n = "OSDXMB" ∨ n = "XEBPLUS" then "APP_" ++ n
    else if n = "RESTART" ∨ n = "POWEROFF" then "RAA_" ++ n
    else if n = "NEUTRINO" then "RTE_" ++ n
    else if n = "BOOT" then "SYS_BOOT"
    else if n = "EXPLOITS" then "ZZY_EXPLOITS"
    else if n = "BM" ∨ n = "MATRIXTEAM" ∨ n = "OPL" then "ZZZ_" ++ n
    else n

/-- `s.startswith(p)`. -/
def strStartsWith (s p : String) : Bool := p.data.isPrefixOf s.data

/-- `_effective_category_key(eff)`. -/
def effectiveCategoryKey (eff : String) : String :=
  if strStartsWith eff "APP_" then "APP_"
  else if eff = "APPS" then "APPS"
  else if strStartsWith eff "PS1_" then "PS1_"
  else if strStartsWith eff "EMU_" then "EMU_"
  else if strStartsWith eff "GME_" then "GME_"
  else if strStartsWith eff "DST_" then "DST_"
  else if strStartsWith eff "DBG_" then "DBG_"
  else if strStartsWith eff "RAA_" then "RAA_"
  else if strStartsWith eff "RTE_" then "RTE_"
  else if strStartsWith eff "SYS_" ∨ eff = "SYS" then "SYS_"
  else if strStartsWith eff "ZZY_" then "ZZY_"
  else if strStartsWith eff "ZZZ_" then "ZZZ_"
  else "DEFAULT"

/-- `_category_label_for_effective(eff)`. -/
def categoryLabelForEffective (eff : String) : String :=
  let key := effectiveCategoryKey eff
  if key = "DEFAULT" then "DEFAULT" else if key = "APPS" then key else key ++ "*"

/-- `eff.replace("-", "")`. -/
def removeDashes (s : String) : String := String.mk (s.data.filter (fun c => c ≠ '-'))

/-- `eff[n:]` (character slicing). -/
def strDropLen (s : String) (n : ℕ) : String := String.mk (s.data.drop n)

/-- `_payload_for_effective(eff)`. -/
def payloadForEffective (eff : String) : String :=
  let key := effectiveCategoryKey eff
  if key = "APPS" then "APPS"
  else if key = "DEFAULT" then removeDashes eff
  else removeDashes (if strStartsWith eff key then strDropLen eff key.data.length else eff)

/-- `CATEGORY_ORDER` (newest → oldest). -/
def CATEGORY_ORDER : List String :=
  ["APP_", "APPS", "PS1_", "EMU_", "GME_", "DST_", "DBG_", "RAA_", "RTE_",
   "DEFAULT", "SYS_", "ZZY_", "ZZZ_"]

/-- `CATEGORY_INDEX[key]` as a partial lookup (a Python `dict` access that
raises `KeyError` on a missing key). -/
def categoryIndexLookup (key : String) : Option ℕ :=
  CATEGORY_ORDER.findIdx? (fun k => k == key)

/-- `_category_priority_index(effective)`; the `getD` default is never
reached (see the totality theorem for C9). -/
def categoryPriorityIndex (eff : String) : ℕ :=
  (categoryIndexLookup (effectiveCategoryKey eff)).getD CATEGORY_ORDER.length

/-- `_slot_index_within_category(effective)`, with the slot budget passed
explicitly (the source reads the module-level `SLOTS_PER_CATEGORY`).
Python's `int(...)` truncates toward zero; the fraction is nonnegative,
so it is the floor. -/
def slotIndexWithinCategory (slotsPerCategory : ℕ) (eff : String) : ℤ :=
  if (slotsPerCategory : ℤ) ≤ ⌊lexFraction (payloadForEffective eff) * (slotsPerCategory : ℚ)⌋
  then (slotsPerCategory : ℤ) - 1
  else ⌊lexFraction (payloadForEffective eff) * (slotsPerCategory : ℚ)⌋

/-- One step of the FNV-1a loop: `h ^= ord(ch); h = (h * 16777619) & 0xFFFFFFFF`. -/
def fnvStep (h : ℕ) (c : Char) : ℕ := ((h ^^^ c.toNat) * 16777619) % 4294967296

/-- `_stable_hash01(s)`: 32-bit FNV-1a folded to its low bit (`h & 1`). -/
def stableHash01 (s : String) : ℕ := (s.data.foldl fnvStep 2166136261) % 2

/-- The configuration surface of the planner: `SECONDS_BETWEEN_ITEMS`,
`SLOTS_PER_CATEGORY`, `ENABLE_STABLE_NUDGE` (set from the CLI by
`_recompute_spacing` and `--stable-nudge`). -/
structure Config where
  secondsBetweenItems : ℕ
  slotsPerCategory : ℕ
  enableStableNudge : Bool

/-- The defaults: 2 s spacing, 43200 slots, nudge off. -/
def defaultConfig : Config := ⟨2, 43200, false⟩

/-- `CATEGORY_BLOCK_SECONDS = SLOTS_PER_CATEGORY * SECONDS_BETWEEN_ITEMS`. -/
def categoryBlockSeconds (cfg : Config) : ℕ :=
  cfg.slotsPerCategory * cfg.secondsBetweenItems

/-- `nudge = _stable_hash01(eff) if ENABLE_STABLE_NUDGE else 0`. -/
def nudgeOf (cfg : Config) (eff : String) : ℤ :=
  if cfg.enableStableNudge then (stableHash01 eff : ℤ) else 0

/-- `_deterministic_offset_seconds(folder_name)`:
returns `(offset_seconds, cat_idx, slot, effective_name)`. -/
def deterministicOffsetSeconds (cfg : Config) (folderName : String) :
    ℤ × ℕ × ℤ × String :=
  let eff := normalizeNameForRules folderName
  let catIdx := categoryPriorityIndex eff
  let slot := slotIndexWithinCategory cfg.slotsPerCategory eff
  let nudge : ℤ := nudgeOf cfg eff
  let catOffset : ℤ := (catIdx : ℤ) * (categoryBlockSeconds cfg : ℤ)
  let nameOffset : ℤ := slot * (cfg.secondsBetweenItems : ℤ) + nudge
  (catOffset + nameOffset, catIdx, slot, eff)

/-- The two `--timeline` strategies. -/
inductive Timeline
  | localForward
  | fixedUtc
deriving DecidableEq

/-- `FIXED_BASE_UTC = datetime(2099, 1, 1, 7, 59, 59, tzinfo=utc)` as Unix
seconds: 47117 days from 1970-01-01 to 2099-01-01 (32 leap years), plus
7:59:59. -/
def FIXED_BASE_UTC_EPOCH : ℤ := 4070937599

/-- The naive anchor `datetime(2098, 12, 31, 0, 0, 0)` read as if it were
UTC, in Unix seconds (one day before 2099-01-01 00:00:00Z). -/
def ANCHOR_NAIVE_EPOCH : ℤ := 4070822400

/-- `_anchor_local_datetime()` as an absolute instant for a host whose
fixed UTC offset is `tzOffsetSeconds` (the naive wall-clock fields are
reinterpreted in the host zone, so the absolute instant is the naive
epoch minus the offset). -/
def anchorLocalEpoch (tzOffsetSeconds : ℤ) : ℤ :=
  ANCHOR_NAIVE_EPOCH - tzOffsetSeconds

/-- One plan tuple `(utc_dt, effective_name, category_label, cat_idx,
slot_idx, offset_sec)` returned by `_planned_timestamp_for_folder`. -/
structure PlanResult where
  tsUtc : ℤ
  effectiveName : String
  categoryLabel : String
  catIdx : ℕ
  slotIdx : ℤ
  offsetSec : ℤ
deriving DecidableEq

/-- `_planned_timestamp_for_folder(folder_name, timeline)`. -/
def plannedTimestampForFolder (cfg : Config) (timeline : Timeline)
    (tzOffsetSeconds : ℤ) (folderName : String) : PlanResult :=
  let r := deterministicOffsetSeconds cfg folderName
  let offsetSec := r.1
  let catIdx := r.2.1
  let slotIdx := r.2.2.1
  let eff := r.2.2.2
  let ts : ℤ :=
    match timeline with
    | .fixedUtc => FIXED_BASE_UTC_EPOCH - offsetSec
    | .localForward => anchorLocalEpoch tzOffsetSeconds + offsetSec
  ⟨ts, eff, categoryLabelForEffective eff, catIdx, slotIdx, offsetSec⟩

/-- `_snap_even_second(dt)` on an instant split into whole Unix seconds
and a microsecond field: `dt.replace(microsecond=0)` zeroes the
microseconds, and `dt.second` of a UTC datetime is `sec % 60`. -/
def snapEvenSecond (sec : ℤ) (microsecond : ℕ) : ℤ × ℕ :=
  if (sec % 60) % 2 = 1 then (sec + 1, 0) else (sec, 0)

/-- The plan-accumulation loop of `main`: each name's computation may fail
(`try`/`except` modelled as `Except`); a failing name is skipped and the
loop continues. -/
def buildPlan (names : List String)
    (compute : String → Except String PlanResult) : List (String × PlanResult) :=
  names.filterMap (fun name =>
    match compute name with
    | .ok r => some (name, r)
    | .error _ => none)

/-- Stable insertion of an entry into a list sorted newest-first by
timestamp (an entry moves past exactly the strictly newer ones). -/
def insertNewestFirst (x : String × PlanResult) :
    List (String × PlanResult) → List (String × PlanResult)
  | [] => [x]
  | y :: ys =>
    if x.2.tsUtc < y.2.tsUtc then y :: insertNewestFirst x ys else x :: y :: ys

/-- `sorted(plan, key=lambda x: x[1], reverse=True)` of the dry-run
writers: a stable descending sort by planned instant. -/
def sortPlanNewestFirst (plan : List (String × PlanResult)) :
    List (String × PlanResult) :=
  plan.foldr insertNewestFirst []

/-! ### Basic facts about the lexical encoder -/

lemma charIndex_le (c : Char) : charIndex c ≤ 39 := by
  have h := Nat.min_le_right (CHARSET.indexOf c) (BASE - 1)
  have hb : BASE - 1 = 39 := by decide
  rw [charIndex]
  omega

lemma lexDigits_le (p : String) : ∀ d ∈ lexDigits p, d ≤ 39 := by
  intro d hd
  simp only [lexDigits, List.mem_map] at hd
  obtain ⟨c, _, rfl⟩ := hd
  exact charIndex_le c

lemma fracOfDigits_nonneg (l : List ℕ) : 0 ≤ fracOfDigits l := by
  induction l with
  | nil => simp [fracOfDigits]
  | cons d t ih =>
    simp only [fracOfDigits]
    apply div_nonneg _ (by norm_num)
    have hd : (0 : ℚ) ≤ (d : ℚ) := Nat.cast_nonneg d
    linarith

lemma fracOfDigits_lt_upper (l : List ℕ) (hb : ∀ d ∈ l, d ≤ 39) :
    fracOfDigits l < 40 / 39 := by
  induction l with
  | nil => norm_num [fracOfDigits]
  | cons d t ih =>
    have hd : (d : ℚ) ≤ 39 := by exact_mod_cast hb d (List.mem_cons_self d t)
    have ht : fracOfDigits t < 40 / 39 := ih (fun x hx => hb x (List.mem_cons_of_mem d hx))
    simp only [fracOfDigits]
    rw [div_lt_iff (by norm_num : (0:ℚ) < 40)]
    linarith

lemma fracOfDigits_lt_one (l : List ℕ) (hb : ∀ d ∈ l, d < 39) :
    fracOfDigits l < 1 := by
  induction l with
  | nil => norm_num [fracOfDigits]
  | cons d t ih =>
    have hd : (d : ℚ) ≤ 38 := by
      have := hb d (List.mem_cons_self d t); exact_mod_cast Nat.lt_succ_iff.mp this
    have ht : fracOfDigits t < 1 := ih (fun x hx => hb x (List.mem_cons_of_mem d hx))
    simp only [fracOfDigits]
    rw [div_lt_one (by norm_num : (0:ℚ) < 40)]
    linarith

/-- Strict monotonicity of the positional fraction along the
lexicographic order, valid when the smaller digit string stays strictly
below the maximal digit (`BASE - 1`): a maximal digit `39` contributes
`40/40`, i.e. a full unit of the previous position, which is exactly the
carry that breaks the unrestricted statement. -/
lemma fracOfDigits_lt_of_lexLt (l1 l2 : List ℕ) (hb : ∀ d ∈ l1, d < 39)
    (h : lexLt l1 l2 = true) : fracOfDigits l1 < fracOfDigits l2 := by
  induction l1 generalizing l2 with
  | nil =>
    cases l2 with
    | nil => simp [lexLt] at h
    | cons b bs =>
      have h0 := fracOfDigits_nonneg bs
      have hbq : (0 : ℚ) ≤ (b : ℚ) := Nat.cast_nonneg b
      simp only [fracOfDigits]
      refine div_pos ?_ (by norm_num)
      linarith
  | cons a as ih =>
    cases l2 with
    | nil => simp [lexLt] at h
    | cons b bs =>
      simp only [lexLt] at h
      have h40 : (0:ℚ) < 40 := by norm_num
      by_cases hab : a < b
      · have has : fracOfDigits as < 1 :=
          fracOfDigits_lt_one as (fun d hd => hb d (List.mem_cons_of_mem a hd))
        have h0 : 0 ≤ fracOfDigits bs := fracOfDigits_nonneg bs
        have hcast : (a : ℚ) + 1 ≤ (b : ℚ) := by exact_mod_cast hab
        simp only [fracOfDigits]
        rw [div_lt_div_iff h40 h40]
        nlinarith
      · by_cases hba : b < a
        · simp [hab, hba] at h
        · have heq : a = b := by omega
          subst heq
          have h' : lexLt as bs = true := by simpa [hab, hba] using h
          have hrec := ih bs (fun d hd => hb d (List.mem_cons_of_mem a hd)) h'
          simp only [fracOfDigits]
          rw [div_lt_div_iff h40 h40]
          nlinarith

lemma lexFraction_nonneg (p : String) : 0 ≤ lexFraction p :=
  fracOfDigits_nonneg _

/-! ### Basic facts about slots and offsets -/

lemma slotIndexWithinCategory_nonneg (S : ℕ) (eff : String) (hS : 0 < S) :
    0 ≤ slotIndexWithinCategory S eff := by
  unfold slotIndexWithinCategory
  have h0 : (0 : ℤ) ≤ ⌊lexFraction (payloadForEffective eff) * (S : ℚ)⌋ := by
    apply Int.le_floor.mpr
    push_cast
    exact mul_nonneg (lexFraction_nonneg _) (Nat.cast_nonneg S)
  split <;> omega

lemma slotIndexWithinCategory_le (S : ℕ) (eff : String) (hS : 0 < S) :
    slotIndexWithinCategory S eff ≤ (S : ℤ) - 1 := by
  unfold slotIndexWithinCategory
  split <;> omega

lemma slotIndexWithinCategory_mono (S : ℕ) (e1 e2 : String)
    (h : lexFraction (payloadForEffective e1) ≤ lexFraction (payloadForEffective e2)) :
    slotIndexWithinCategory S e1 ≤ slotIndexWithinCategory S e2 := by
  unfold slotIndexWithinCategory
  have hf : ⌊lexFraction (payloadForEffective e1) * (S : ℚ)⌋ ≤
      ⌊lexFraction (payloadForEffective e2) * (S : ℚ)⌋ :=
    Int.floor_mono (mul_le_mul_of_nonneg_right h (Nat.cast_nonneg S))
  split <;> split <;> omega

lemma nudgeOf_nonneg (cfg : Config) (eff : String) : 0 ≤ nudgeOf cfg eff := by
  unfold nudgeOf
  split
  · exact Int.ofNat_nonneg _
  · exact le_refl 0

lemma nudgeOf_le_one (cfg : Config) (eff : String) : nudgeOf cfg eff ≤ 1 := by
  unfold nudgeOf
  split
  · have h : stableHash01 eff < 2 := Nat.mod_lt _ (by norm_num)
    omega
  · omega

lemma nudgeOf_of_disabled (cfg : Config) (eff : String)
    (h : cfg.enableStableNudge = false) : nudgeOf cfg eff = 0 := by
  simp [nudgeOf, h]

lemma detOff_fst (cfg : Config) (n : String) :
    (deterministicOffsetSeconds cfg n).1 =
      (categoryPriorityIndex (normalizeNameForRules n) : ℤ) * (categoryBlockSeconds cfg : ℤ) +
      (slotIndexWithinCategory cfg.slotsPerCategory (normalizeNameForRules n) *
        (cfg.secondsBetweenItems : ℤ) + nudgeOf cfg (normalizeNameForRules n)) := rfl

lemma planned_fixed_ts (cfg : Config) (tz : ℤ) (n : String) :
    (plannedTimestampForFolder cfg .fixedUtc tz n).tsUtc =
      FIXED_BASE_UTC_EPOCH - (deterministicOffsetSeconds cfg n).1 := rfl

lemma planned_forward_ts (cfg : Config) (tz : ℤ) (n : String) :
    (plannedTimestampForFolder cfg .localForward tz n).tsUtc =
      anchorLocalEpoch tz + (deterministicOffsetSeconds cfg n).1 := rfl

/-- The offset of a name stays inside its category block:
`rank * block ≤ offset ≤ (rank + 1) * block`, the upper bound strict
whenever the nudge is off or the spacing is at least 2 (with
`secondsBetweenItems = 1` and the nudge on, a maximal slot can land
exactly on the next block boundary). -/
lemma offset_block_bounds (cfg : Config) (n : String)
    (hsps : 0 < cfg.secondsBetweenItems) (hslots : 0 < cfg.slotsPerCategory) :
    ((categoryPriorityIndex (normalizeNameForRules n) : ℤ) * (categoryBlockSeconds cfg : ℤ) ≤
        (deterministicOffsetSeconds cfg n).1 ∧
      (deterministicOffsetSeconds cfg n).1 ≤
        ((categoryPriorityIndex (normalizeNameForRules n) : ℤ) + 1) * (categoryBlockSeconds cfg : ℤ)) ∧
    (cfg.enableStableNudge = false ∨ 2 ≤ cfg.secondsBetweenItems →
      (deterministicOffsetSeconds cfg n).1 <
        ((categoryPriorityIndex (normalizeNameForRules n) : ℤ) + 1) * (categoryBlockSeconds cfg : ℤ)) := by
  rw [detOff_fst]
  set eff := normalizeNameForRules n with heff
  set r : ℤ := (categoryPriorityIndex eff : ℤ) with hr
  set s : ℤ := slotIndexWithinCategory cfg.slotsPerCategory eff with hs
  set ν : ℤ := nudgeOf cfg eff with hν
  have hblock : (categoryBlockSeconds cfg : ℤ) =
      (cfg.slotsPerCategory : ℤ) * (cfg.secondsBetweenItems : ℤ) := by
    unfold categoryBlockSeconds; push_cast; ring
  have hs0 : 0 ≤ s := slotIndexWithinCategory_nonneg _ _ hslots
  have hs1 : s ≤ (cfg.slotsPerCategory : ℤ) - 1 := slotIndexWithinCategory_le _ _ hslots
  have hν0 : 0 ≤ ν := nudgeOf_nonneg cfg eff
  have hν1 : ν ≤ 1 := nudgeOf_le_one cfg eff
  have hsps' : (1 : ℤ) ≤ (cfg.secondsBetweenItems : ℤ) := by exact_mod_cast hsps
  have hmul : s * (cfg.secondsBetweenItems : ℤ) ≤
      ((cfg.slotsPerCategory : ℤ) - 1) * (cfg.secondsBetweenItems : ℤ) :=
    mul_le_mul_of_nonneg_right hs1 (by omega)
  have hmul0 : 0 ≤ s * (cfg.secondsBetweenItems : ℤ) := mul_nonneg hs0 (by omega)
  refine ⟨⟨by nlinarith, ?_⟩, ?_⟩
  · rw [hblock]; nlinarith
  · rintro (hoff | hoff)
    · have : ν = 0 := nudgeOf_of_disabled cfg eff hoff
      rw [hblock]; nlinarith
    · have h2 : (2 : ℤ) ≤ (cfg.secondsBetweenItems : ℤ) := by exact_mod_cast hoff
      rw [hblock]; nlinarith

/-! ### Concrete evaluations

Kernel reduction handles the string- and `ℕ`-level functions (`decide`),
while the exact-rational values are established with `norm_num`. -/

lemma lexFraction_eval_OSDXMB :
    lexFraction (payloadForEffective "APP_OSDXMB") = 2740216973 / 4096000000 := by
  have h : lexDigits (payloadForEffective "APP_OSDXMB") = [25, 29, 14, 34, 23, 12] := by decide
  unfold lexFraction
  rw [h]
  simp [fracOfDigits]
  norm_num

lemma lexFraction_eval_BOOT :
    lexFraction (payloadForEffective "SYS_BOOT") = 874671 / 2560000 := by
  have h : lexDigits (payloadForEffective "SYS_BOOT") = [12, 25, 25, 30] := by decide
  unfold lexFraction
  rw [h]
  simp [fracOfDigits]
  norm_num

lemma lexFraction_eval_RANDOMFOLDER :
    lexFraction (payloadForEffective "RANDOMFOLDER") =
      12295966983952856669 / 16777216000000000000 := by
  have h : lexDigits (payloadForEffective "RANDOMFOLDER") =
      [28, 11, 24, 14, 25, 23, 16, 25, 22, 14, 15, 28] := by decide
  unfold lexFraction
  rw [h]
  simp [fracOfDigits]
  norm_num

lemma lexFraction_eval_ZZZ_CUSTOM :
    lexFraction (payloadForEffective "ZZZ_CUSTOM") = 189686333 / 512000000 := by
  have h : lexDigits (payloadForEffective "ZZZ_CUSTOM") = [13, 31, 29, 30, 25, 23] := by decide
  unfold lexFraction
  rw [h]
  simp [fracOfDigits]
  norm_num

lemma lexFraction_eval_A_dots :
    lexFraction (payloadForEffective "APP_A...") = 20841 / 64000 := by
  have h : lexDigits (payloadForEffective "APP_A...") = [11, 39, 39, 39] := by decide
  unfold lexFraction
  rw [h]
  simp [fracOfDigits]
  norm_num

lemma lexFraction_eval_B :
    lexFraction (payloadForEffective "APP_B") = 13 / 40 := by
  have h : lexDigits (payloadForEffective "APP_B") = [12] := by decide
  unfold lexFraction
  rw [h]
  simp [fracOfDigits]
  norm_num

lemma slot_eval_OSDXMB : slotIndexWithinCategory 43200 "APP_OSDXMB" = 28900 := by
  unfold slotIndexWithinCategory
  rw [lexFraction_eval_OSDXMB]
  norm_num

lemma slot_eval_BOOT : slotIndexWithinCategory 43200 "SYS_BOOT" = 14760 := by
  unfold slotIndexWithinCategory
  rw [lexFraction_eval_BOOT]
  norm_num

lemma slot_eval_RANDOMFOLDER : slotIndexWithinCategory 43200 "RANDOMFOLDER" = 31661 := by
  unfold slotIndexWithinCategory
  rw [lexFraction_eval_RANDOMFOLDER]
  norm_num

lemma slot_eval_ZZZ_CUSTOM : slotIndexWithinCategory 43200 "ZZZ_CUSTOM" = 16004 := by
  unfold slotIndexWithinCategory
  rw [lexFraction_eval_ZZZ_CUSTOM]
  norm_num

lemma slot_eval_A_dots : slotIndexWithinCategory 43200 "APP_A..." = 14067 := by
  unfold slotIndexWithinCategory
  rw [lexFraction_eval_A_dots]
  norm_num

lemma slot_eval_B : slotIndexWithinCategory 43200 "APP_B" = 14040 := by
  unfold slotIndexWithinCategory
  rw [lexFraction_eval_B]
  norm_num

lemma offset_eval_OSDXMB : (deterministicOffsetSeconds defaultConfig "OSDXMB").1 = 57800 := by
  rw [detOff_fst, show normalizeNameForRules "OSDXMB" = "APP_OSDXMB" from by decide,
    show defaultConfig.slotsPerCategory = 43200 from rfl, slot_eval_OSDXMB,
    show categoryPriorityIndex "APP_OSDXMB" = 0 from by decide,
    show nudgeOf defaultConfig "APP_OSDXMB" = 0 from rfl,
    show (categoryBlockSeconds defaultConfig : ℤ) = 86400 from rfl,
    show (defaultConfig.secondsBetweenItems : ℤ) = 2 from rfl]
  norm_num

lemma offset_eval_BOOT : (deterministicOffsetSeconds defaultConfig "BOOT").1 = 893520 := by
  rw [detOff_fst, show normalizeNameForRules "BOOT" = "SYS_BOOT" from by decide,
    show defaultConfig.slotsPerCategory = 43200 from rfl, slot_eval_BOOT,
    show categoryPriorityIndex "SYS_BOOT" = 10 from by decide,
    show nudgeOf defaultConfig "SYS_BOOT" = 0 from rfl,
    show (categoryBlockSeconds defaultConfig : ℤ) = 86400 from rfl,
    show (defaultConfig.secondsBetweenItems : ℤ) = 2 from rfl]
  norm_num

lemma offset_eval_RANDOMFOLDER :
    (deterministicOffsetSeconds defaultConfig "RANDOMFOLDER").1 = 840922 := by
  rw [detOff_fst, show normalizeNameForRules "RANDOMFOLDER" = "RANDOMFOLDER" from by decide,
    show defaultConfig.slotsPerCategory = 43200 from rfl, slot_eval_RANDOMFOLDER,
    show categoryPriorityIndex "RANDOMFOLDER" = 9 from by decide,
    show nudgeOf defaultConfig "RANDOMFOLDER" = 0 from rfl,
    show (categoryBlockSeconds defaultConfig : ℤ) = 86400 from rfl,
    show (defaultConfig.secondsBetweenItems : ℤ) = 2 from rfl]
  norm_num

lemma offset_eval_ZZZ_CUSTOM :
    (deterministicOffsetSeconds defaultConfig "ZZZ_CUSTOM").1 = 1068808 := by
  rw [detOff_fst, show normalizeNameForRules "ZZZ_CUSTOM" = "ZZZ_CUSTOM" from by decide,
    show defaultConfig.slotsPerCategory = 43200 from rfl, slot_eval_ZZZ_CUSTOM,
    show categoryPriorityIndex "ZZZ_CUSTOM" = 12 from by decide,
    show nudgeOf defaultConfig "ZZZ_CUSTOM" = 0 from rfl,
    show (categoryBlockSeconds defaultConfig : ℤ) = 86400 from rfl,
    show (defaultConfig.secondsBetweenItems : ℤ) = 2 from rfl]
  norm_num

lemma ts_fixed_OSDXMB :
    (plannedTimestampForFolder defaultConfig .fixedUtc 0 "OSDXMB").tsUtc = 4070879799 := by
  rw [planned_fixed_ts, offset_eval_OSDXMB]
  norm_num [FIXED_BASE_UTC_EPOCH]

lemma ts_fixed_BOOT :
    (plannedTimestampForFolder defaultConfig .fixedUtc 0 "BOOT").tsUtc = 4070044079 := by
  rw [planned_fixed_ts, offset_eval_BOOT]
  norm_num [FIXED_BASE_UTC_EPOCH]

lemma ts_fixed_RANDOMFOLDER :
    (plannedTimestampForFolder defaultConfig .fixedUtc 0 "RANDOMFOLDER").tsUtc = 4070096677 := by
  rw [planned_fixed_ts, offset_eval_RANDOMFOLDER]
  norm_num [FIXED_BASE_UTC_EPOCH]

lemma ts_fixed_ZZZ_CUSTOM :
    (plannedTimestampForFolder defaultConfig .fixedUtc 0 "ZZZ_CUSTOM").tsUtc = 4069868791 := by
  rw [planned_fixed_ts, offset_eval_ZZZ_CUSTOM]
  norm_num [FIXED_BASE_UTC_EPOCH]

lemma ts_forward_OSDXMB :
    (plannedTimestampForFolder defaultConfig .localForward 0 "OSDXMB").tsUtc = 4070880200 := by
  rw [planned_forward_ts, offset_eval_OSDXMB]
  norm_num [anchorLocalEpoch, ANCHOR_NAIVE_EPOCH]

lemma ts_forward_BOOT :
    (plannedTimestampForFolder defaultConfig .localForward 0 "BOOT").tsUtc = 4071715920 := by
  rw [planned_forward_ts, offset_eval_BOOT]
  norm_num [anchorLocalEpoch, ANCHOR_NAIVE_EPOCH]

/-! ### Claim C3: range of the lexical encoder -/

/-- C3, counterexample: the payload `"."` (its single character maps to
the last alphabet index 39) encodes to exactly `1`, so the claimed
contract `encode(payload) ∈ [0, 1)` fails. -/
theorem lexFraction_dot_reaches_one :
    lexFraction "." = 1 ∧ ¬ lexFraction "." < 1 := by
  have h : lexDigits "." = [39] := by decide
  have heq : lexFraction "." = 1 := by
    unfold lexFraction
    rw [h]
    simp [fracOfDigits]
    norm_num
  exact ⟨heq, by rw [heq]; exact lt_irrefl 1⟩

/-- C3, amended: for every payload string the lexical encoder
`_lex_fraction` returns a value in `[0, 40/39)`; the value is
nonnegative but can reach or exceed `1` when leading characters map to
the last alphabet index. -/
theorem lexFraction_range (payload : String) :
    0 ≤ lexFraction payload ∧ lexFraction payload < 40 / 39 :=
  ⟨fracOfDigits_nonneg _, fracOfDigits_lt_upper _ (lexDigits_le payload)⟩

/-! ### Claim C4: monotonicity of the lexical encoder -/

/-- C4, counterexample: `"A.."` precedes `"B"` in the fixed alphabet
ordering (`A < B` at the first position), yet
`encode("A..") = 521/1600 > 13/40 = encode("B")`: the trailing maximal
characters contribute a full carry, so `encode(a) < encode(b)` fails. -/
theorem lexFraction_not_strictly_monotone :
    lexLt (lexDigits "A..") (lexDigits "B") = true ∧
    ¬ lexFraction "A.." < lexFraction "B" := by
  have h1 : lexFraction "A.." = 521 / 1600 := by
    have h : lexDigits "A.." = [11, 39, 39] := by decide
    unfold lexFraction
    rw [h]
    simp [fracOfDigits]
    norm_num
  have h2 : lexFraction "B" = 13 / 40 := by
    have h : lexDigits "B" = [12] := by decide
    unfold lexFraction
    rw [h]
    simp [fracOfDigits]
    norm_num
  refine ⟨by decide, ?_⟩
  rw [h1, h2]
  norm_num

/-- C4, amended: strict monotonicity of the encoder along the fixed
alphabet ordering holds whenever the smaller payload's truncated,
uppercased, alphabet-mapped digits all stay strictly below the last
alphabet index `BASE - 1`; and two payloads with identical digit
representations (in particular, payloads agreeing on their first 128
characters) encode to the same fraction. -/
theorem lexFraction_monotone_on_interior (a b : String)
    (ha : ∀ d ∈ lexDigits a, d < BASE - 1) :
    (lexLt (lexDigits a) (lexDigits b) = true → lexFraction a < lexFraction b) ∧
    (lexDigits a = lexDigits b → lexFraction a = lexFraction b) := by
  constructor
  · intro h
    have hB : BASE - 1 = 39 := by decide
    have ha' : ∀ d ∈ lexDigits a, d < 39 := by
      intro d hd; have := ha d hd; omega
    exact fracOfDigits_lt_of_lexLt _ _ ha' h
  · intro h
    unfold lexFraction
    rw [h]

/-- Witness for the amended C4 at the concrete payloads `"ALPHA"`,
`"BETA"`. -/
theorem lexFraction_monotone_on_interior_witness :
    (∀ d ∈ lexDigits "ALPHA", d < BASE - 1) ∧
    ((lexLt (lexDigits "ALPHA") (lexDigits "BETA") = true →
        lexFraction "ALPHA" < lexFraction "BETA") ∧
      (lexDigits "ALPHA" = lexDigits "BETA" →
        lexFraction "ALPHA" = lexFraction "BETA")) :=
  ⟨by decide, lexFraction_monotone_on_interior "ALPHA" "BETA" (by decide)⟩

/-! ### Claim C5: slots stay within the configured budget -/

/-- C5: for every effective name and positive slot budget, the computed
slot satisfies `0 ≤ slot ≤ slotsPerCategory - 1`; the saturation caps the
floor even when the encoded fraction reaches or exceeds `1`. -/
theorem slot_within_budget (slotsPerCategory : ℕ) (eff : String)
    (h : 0 < slotsPerCategory) :
    0 ≤ slotIndexWithinCategory slotsPerCategory eff ∧
    slotIndexWithinCategory slotsPerCategory eff ≤ (slotsPerCategory : ℤ) - 1 :=
  ⟨slotIndexWithinCategory_nonneg _ _ h, slotIndexWithinCategory_le _ _ h⟩

/-- Witness for C5 at budget 4 and the effective name `"APP_."`, whose
payload `"."` encodes to exactly `1` and therefore exercises the
saturation branch. -/
theorem slot_within_budget_witness :
    0 < 4 ∧
    (0 ≤ slotIndexWithinCategory 4 "APP_." ∧
      slotIndexWithinCategory 4 "APP_." ≤ (4 : ℤ) - 1) :=
  ⟨by decide, slot_within_budget 4 "APP_." (by decide)⟩

/-! ### Claim C8: even-second snapping -/

/-- C8, counterexample: an instant with an even seconds component but a
nonzero microsecond field is not returned unchanged — `_snap_even_second`
always zeroes the microseconds first. -/
theorem snap_changes_even_instant_with_microseconds :
    (0 : ℤ) % 2 = 0 ∧ snapEvenSecond 0 500000 ≠ (0, 500000) := by
  constructor <;> decide

/-- C8, amended: the snapped result always has an even seconds component
and a zero microsecond field; an odd-second instant is rounded up by one
second after zeroing microseconds, an even-second instant keeps its
seconds, and it is returned entirely unchanged exactly when its
microsecond field was already zero. -/
theorem snap_even_second_behavior (sec : ℤ) (microsecond : ℕ) :
    (snapEvenSecond sec microsecond).1 % 2 = 0 ∧
    (snapEvenSecond sec microsecond).2 = 0 ∧
    (sec % 2 = 1 → snapEvenSecond sec microsecond = (sec + 1, 0)) ∧
    (sec % 2 = 0 → (snapEvenSecond sec microsecond).1 = sec ∧
      (microsecond = 0 → snapEvenSecond sec microsecond = (sec, microsecond))) := by
  simp only [snapEvenSecond]
  split
  case isTrue h =>
    exact ⟨by omega, rfl, fun _ => rfl, fun h0 => absurd h0 (by omega)⟩
  case isFalse h =>
    exact ⟨by omega, rfl, fun h1 => absurd h1 (by omega),
      fun h0 => ⟨rfl, fun hm => by rw [hm]⟩⟩

/-- Witness for the amended C8 at seconds 3, microseconds 250000. -/
theorem snap_even_second_behavior_witness :
    (snapEvenSecond 3 250000).1 % 2 = 0 ∧
    (snapEvenSecond 3 250000).2 = 0 ∧
    ((3 : ℤ) % 2 = 1 → snapEvenSecond 3 250000 = (3 + 1, 0)) ∧
    ((3 : ℤ) % 2 = 0 → (snapEvenSecond 3 250000).1 = 3 ∧
      (250000 = 0 → snapEvenSecond 3 250000 = (3, 250000))) :=
  snap_even_second_behavior 3 250000

/-! ### Claim C1: category precedence across the two timelines -/

/-- C1, counterexample: with the default configuration and a UTC host,
`OSDXMB` classifies strictly before `BOOT` in the Category Order
(rank 0 < rank 10), yet under the forward-anchor timeline its planned
instant is strictly *older* (the offset is added to the anchor, so larger
ranks land later), refuting the claim for the forward-anchor strategy. -/
theorem forward_anchor_reverses_category_order :
    categoryPriorityIndex (normalizeNameForRules "OSDXMB") <
      categoryPriorityIndex (normalizeNameForRules "BOOT") ∧
    ¬ (plannedTimestampForFolder defaultConfig .localForward 0 "BOOT").tsUtc <
        (plannedTimestampForFolder defaultConfig .localForward 0 "OSDXMB").tsUtc := by
  refine ⟨by decide, ?_⟩
  rw [ts_forward_OSDXMB, ts_forward_BOOT]
  norm_num

/-- C1, amended: for every configuration with positive
`secondsPerSlot`/`slotsPerCategory` and ranks `rank(a) < rank(b)`,
offset accumulation never crosses the category block: under the
fixed-anchor timeline the earlier-ranked name is at least as new, and
under the forward-anchor timeline it is at least as old (the temporal
direction is reversed); both comparisons are strict whenever the nudge
is disabled or `secondsPerSlot ≥ 2` (with spacing 1 and the nudge on, a
maximal slot can land exactly on the next block's boundary). -/
theorem category_rank_ordering (cfg : Config) (tz : ℤ) (a b : String)
    (hsps : 0 < cfg.secondsBetweenItems) (hslots : 0 < cfg.slotsPerCategory)
    (hrank : categoryPriorityIndex (normalizeNameForRules a) <
      categoryPriorityIndex (normalizeNameForRules b)) :
    ((plannedTimestampForFolder cfg .fixedUtc tz b).tsUtc ≤
        (plannedTimestampForFolder cfg .fixedUtc tz a).tsUtc ∧
      (plannedTimestampForFolder cfg .localForward tz a).tsUtc ≤
        (plannedTimestampForFolder cfg .localForward tz b).tsUtc) ∧
    (cfg.enableStableNudge = false ∨ 2 ≤ cfg.secondsBetweenItems →
      (plannedTimestampForFolder cfg .fixedUtc tz b).tsUtc <
          (plannedTimestampForFolder cfg .fixedUtc tz a).tsUtc ∧
        (plannedTimestampForFolder cfg .localForward tz a).tsUtc <
          (plannedTimestampForFolder cfg .localForward tz b).tsUtc) := by
  obtain ⟨⟨hlo_a, hhi_a⟩, hstrict_a⟩ := offset_block_bounds cfg a hsps hslots
  obtain ⟨⟨hlo_b, hhi_b⟩, hstrict_b⟩ := offset_block_bounds cfg b hsps hslots
  have hblock0 : (0 : ℤ) ≤ (categoryBlockSeconds cfg : ℤ) := Int.ofNat_nonneg _
  have hr1 : (categoryPriorityIndex (normalizeNameForRules a) : ℤ) + 1 ≤
      (categoryPriorityIndex (normalizeNameForRules b) : ℤ) := by exact_mod_cast hrank
  have hmul : ((categoryPriorityIndex (normalizeNameForRules a) : ℤ) + 1) *
        (categoryBlockSeconds cfg : ℤ) ≤
      (categoryPriorityIndex (normalizeNameForRules b) : ℤ) * (categoryBlockSeconds cfg : ℤ) :=
    mul_le_mul_of_nonneg_right hr1 hblock0
  have hle : (deterministicOffsetSeconds cfg a).1 ≤ (deterministicOffsetSeconds cfg b).1 :=
    le_trans hhi_a (le_trans hmul hlo_b)
  refine ⟨⟨?_, ?_⟩, ?_⟩
  · rw [planned_fixed_ts, planned_fixed_ts]; linarith
  · rw [planned_forward_ts, planned_forward_ts]; linarith
  · intro h
    have hlt : (deterministicOffsetSeconds cfg a).1 < (deterministicOffsetSeconds cfg b).1 :=
      lt_of_lt_of_le (hstrict_a h) (le_trans hmul hlo_b)
    constructor
    · rw [planned_fixed_ts, planned_fixed_ts]; linarith
    · rw [planned_forward_ts, planned_forward_ts]; linarith

/-- Witness for the amended C1 at the default configuration, a UTC host
and the names `"APPS"` (rank 1) and `"ZZZ_CUSTOM"` (rank 12). -/
theorem category_rank_ordering_witness :
    0 < defaultConfig.secondsBetweenItems ∧ 0 < defaultConfig.slotsPerCategory ∧
    (((plannedTimestampForFolder defaultConfig .fixedUtc 0 "ZZZ_CUSTOM").tsUtc ≤
        (plannedTimestampForFolder defaultConfig .fixedUtc 0 "APPS").tsUtc ∧
      (plannedTimestampForFolder defaultConfig .localForward 0 "APPS").tsUtc ≤
        (plannedTimestampForFolder defaultConfig .localForward 0 "ZZZ_CUSTOM").tsUtc) ∧
    (defaultConfig.enableStableNudge = false ∨ 2 ≤ defaultConfig.secondsBetweenItems →
      (plannedTimestampForFolder defaultConfig .fixedUtc 0 "ZZZ_CUSTOM").tsUtc <
          (plannedTimestampForFolder defaultConfig .fixedUtc 0 "APPS").tsUtc ∧
        (plannedTimestampForFolder defaultConfig .localForward 0 "APPS").tsUtc <
          (plannedTimestampForFolder defaultConfig .localForward 0 "ZZZ_CUSTOM").tsUtc)) :=
  ⟨by decide, by decide,
    category_rank_ordering defaultConfig 0 "APPS" "ZZZ_CUSTOM" (by decide) (by decide) (by decide)⟩

/-! ### Claim C2: within-category payload ordering -/

/-- C2, counterexample: the names `"APP_A..."` and `"APP_B"` share the
category `APP_`, their payloads satisfy `"A..." < "B"` in the fixed
alphabet ordering, yet with the default budget 43200 the first name's
slot is 14067 > 14040, refuting `slot(a) ≤ slot(b)` (the trailing
maximal characters `.` overflow into higher slots). -/
theorem slot_not_monotone_on_maximal_chars :
    effectiveCategoryKey (normalizeNameForRules "APP_A...") =
      effectiveCategoryKey (normalizeNameForRules "APP_B") ∧
    lexLt (lexDigits (payloadForEffective (normalizeNameForRules "APP_A...")))
        (lexDigits (payloadForEffective (normalizeNameForRules "APP_B"))) = true ∧
    ¬ slotIndexWithinCategory 43200 (normalizeNameForRules "APP_A...") ≤
        slotIndexWithinCategory 43200 (normalizeNameForRules "APP_B") := by
  refine ⟨by decide, by decide, ?_⟩
  rw [show normalizeNameForRules "APP_A..." = "APP_A..." from by decide,
    show normalizeNameForRules "APP_B" = "APP_B" from by decide,
    slot_eval_A_dots, slot_eval_B]
  norm_num

/-- C2, amended: for names in the same category whose payload digit
strings compare strictly (`pa < pb` over the fixed alphabet, dashes
stripped, case-insensitive, truncated to 128 characters), and whose
smaller payload avoids the last alphabet index, `slot(a) ≤ slot(b)`;
with the nudge disabled, the planned instant of `a` is at least as new
as that of `b` under the fixed-anchor timeline — equal exactly when the
two slots coincide — while the forward-anchor timeline reverses the
temporal direction (`a` is at least as old as `b`). -/
theorem payload_order_slot_instant_ordering (cfg : Config) (tz : ℤ) (a b : String)
    (hsps : 0 < cfg.secondsBetweenItems)
    (hnudge : cfg.enableStableNudge = false)
    (hcat : effectiveCategoryKey (normalizeNameForRules a) =
      effectiveCategoryKey (normalizeNameForRules b))
    (hbound : ∀ d ∈ lexDigits (payloadForEffective (normalizeNameForRules a)), d < BASE - 1)
    (hlt : lexLt (lexDigits (payloadForEffective (normalizeNameForRules a)))
        (lexDigits (payloadForEffective (normalizeNameForRules b))) = true) :
    slotIndexWithinCategory cfg.slotsPerCategory (normalizeNameForRules a) ≤
      slotIndexWithinCategory cfg.slotsPerCategory (normalizeNameForRules b) ∧
    (plannedTimestampForFolder cfg .fixedUtc tz b).tsUtc ≤
      (plannedTimestampForFolder cfg .fixedUtc tz a).tsUtc ∧
    ((plannedTimestampForFolder cfg .fixedUtc tz a).tsUtc =
        (plannedTimestampForFolder cfg .fixedUtc tz b).tsUtc ↔
      slotIndexWithinCategory cfg.slotsPerCategory (normalizeNameForRules a) =
        slotIndexWithinCategory cfg.slotsPerCategory (normalizeNameForRules b)) ∧
    (plannedTimestampForFolder cfg .localForward tz a).tsUtc ≤
      (plannedTimestampForFolder cfg .localForward tz b).tsUtc := by
  have hbound' : ∀ d ∈ lexDigits (payloadForEffective (normalizeNameForRules a)), d < 39 := by
    have hB : BASE - 1 = 39 := by decide
    intro d hd
    have := hbound d hd
    omega
  have hfrac := fracOfDigits_lt_of_lexLt _ _ hbound' hlt
  have hslot : slotIndexWithinCategory cfg.slotsPerCategory (normalizeNameForRules a) ≤
      slotIndexWithinCategory cfg.slotsPerCategory (normalizeNameForRules b) :=
    slotIndexWithinCategory_mono _ _ _ (le_of_lt hfrac)
  have hrank : categoryPriorityIndex (normalizeNameForRules a) =
      categoryPriorityIndex (normalizeNameForRules b) := by
    unfold categoryPriorityIndex
    rw [hcat]
  have hν0 : nudgeOf cfg (normalizeNameForRules a) = 0 := nudgeOf_of_disabled _ _ hnudge
  have hν0' : nudgeOf cfg (normalizeNameForRules b) = 0 := nudgeOf_of_disabled _ _ hnudge
  have hoffa := detOff_fst cfg a
  have hoffb := detOff_fst cfg b
  rw [hν0] at hoffa
  rw [hν0', ← hrank] at hoffb
  have hsp0 : (0 : ℤ) ≤ (cfg.secondsBetweenItems : ℤ) := Int.ofNat_nonneg _
  have hspne : (cfg.secondsBetweenItems : ℤ) ≠ 0 := by
    have := hsps
    omega
  have hmul : slotIndexWithinCategory cfg.slotsPerCategory (normalizeNameForRules a) *
        (cfg.secondsBetweenItems : ℤ) ≤
      slotIndexWithinCategory cfg.slotsPerCategory (normalizeNameForRules b) *
        (cfg.secondsBetweenItems : ℤ) :=
    mul_le_mul_of_nonneg_right hslot hsp0
  have hoffle : (deterministicOffsetSeconds cfg a).1 ≤ (deterministicOffsetSeconds cfg b).1 := by
    rw [hoffa, hoffb]
    linarith
  refine ⟨hslot, ?_, ?_, ?_⟩
  · rw [planned_fixed_ts, planned_fixed_ts]
    linarith
  · rw [planned_fixed_ts, planned_fixed_ts]
    constructor
    · intro h
      have hoffeq : (deterministicOffsetSeconds cfg a).1 = (deterministicOffsetSeconds cfg b).1 := by
        linarith
      rw [hoffa, hoffb] at hoffeq
      have hmuleq : slotIndexWithinCategory cfg.slotsPerCategory (normalizeNameForRules a) *
            (cfg.secondsBetweenItems : ℤ) =
          slotIndexWithinCategory cfg.slotsPerCategory (normalizeNameForRules b) *
            (cfg.secondsBetweenItems : ℤ) := by
        linarith
      exact mul_right_cancel₀ hspne hmuleq
    · intro h
      rw [hoffa, hoffb, h]
  · rw [planned_forward_ts, planned_forward_ts]
    linarith

/-- Witness for the amended C2 at the default configuration, a UTC host
and the names `"APP_ALPHA"`, `"APP_BETA"`. -/
theorem payload_order_slot_instant_ordering_witness :
    0 < defaultConfig.secondsBetweenItems ∧
    defaultConfig.enableStableNudge = false ∧
    (slotIndexWithinCategory defaultConfig.slotsPerCategory (normalizeNameForRules "APP_ALPHA") ≤
      slotIndexWithinCategory defaultConfig.slotsPerCategory (normalizeNameForRules "APP_BETA") ∧
    (plannedTimestampForFolder defaultConfig .fixedUtc 0 "APP_BETA").tsUtc ≤
      (plannedTimestampForFolder defaultConfig .fixedUtc 0 "APP_ALPHA").tsUtc ∧
    ((plannedTimestampForFolder defaultConfig .fixedUtc 0 "APP_ALPHA").tsUtc =
        (plannedTimestampForFolder defaultConfig .fixedUtc 0 "APP_BETA").tsUtc ↔
      slotIndexWithinCategory defaultConfig.slotsPerCategory (normalizeNameForRules "APP_ALPHA") =
        slotIndexWithinCategory defaultConfig.slotsPerCategory (normalizeNameForRules "APP_BETA")) ∧
    (plannedTimestampForFolder defaultConfig .localForward 0 "APP_ALPHA").tsUtc ≤
      (plannedTimestampForFolder defaultConfig .localForward 0 "APP_BETA").tsUtc) :=
  ⟨by decide, rfl,
    payload_order_slot_instant_ordering defaultConfig 0 "APP_ALPHA" "APP_BETA"
      (by decide) rfl (by decide) (by decide) (by decide)⟩

/-! ### Claim C6: the example scenario -/

/-- C6: with the defaults (43200 slots, 2 s spacing, fixed anchor, nudge
off) the four example names classify as the spec states, and sorting the
resulting plan newest→oldest by instant yields
`OSDXMB, RANDOMFOLDER, BOOT, ZZZ_CUSTOM`. -/
theorem example_scenario :
    normalizeNameForRules "OSDXMB" = "APP_OSDXMB" ∧
    effectiveCategoryKey "APP_OSDXMB" = "APP_" ∧
    categoryPriorityIndex "APP_OSDXMB" = 0 ∧
    normalizeNameForRules "BOOT" = "SYS_BOOT" ∧
    effectiveCategoryKey "SYS_BOOT" = "SYS_" ∧
    categoryPriorityIndex "SYS_BOOT" = 10 ∧
    normalizeNameForRules "RANDOMFOLDER" = "RANDOMFOLDER" ∧
    effectiveCategoryKey "RANDOMFOLDER" = "DEFAULT" ∧
    categoryPriorityIndex "RANDOMFOLDER" = 9 ∧
    normalizeNameForRules "ZZZ_CUSTOM" = "ZZZ_CUSTOM" ∧
    effectiveCategoryKey "ZZZ_CUSTOM" = "ZZZ_" ∧
    categoryPriorityIndex "ZZZ_CUSTOM" = 12 ∧
    (plannedTimestampForFolder defaultConfig .fixedUtc 0 "RANDOMFOLDER").tsUtc <
      (plannedTimestampForFolder defaultConfig .fixedUtc 0 "OSDXMB").tsUtc ∧
    (plannedTimestampForFolder defaultConfig .fixedUtc 0 "BOOT").tsUtc <
      (plannedTimestampForFolder defaultConfig .fixedUtc 0 "RANDOMFOLDER").tsUtc ∧
    (plannedTimestampForFolder defaultConfig .fixedUtc 0 "ZZZ_CUSTOM").tsUtc <
      (plannedTimestampForFolder defaultConfig .fixedUtc 0 "BOOT").tsUtc ∧
    (sortPlanNewestFirst (buildPlan ["OSDXMB", "BOOT", "RANDOMFOLDER", "ZZZ_CUSTOM"]
        (fun n => Except.ok (plannedTimestampForFolder defaultConfig .fixedUtc 0 n)))).map
        Prod.fst =
      ["OSDXMB", "RANDOMFOLDER", "BOOT", "ZZZ_CUSTOM"] := by
  refine ⟨by decide, by decide, by decide, by decide, by decide, by decide, by decide,
    by decide, by decide, by decide, by decide, by decide, ?_, ?_, ?_, ?_⟩
  · rw [ts_fixed_OSDXMB, ts_fixed_RANDOMFOLDER]; norm_num
  · rw [ts_fixed_BOOT, ts_fixed_RANDOMFOLDER]; norm_num
  · rw [ts_fixed_BOOT, ts_fixed_ZZZ_CUSTOM]; norm_num
  · simp only [buildPlan, List.filterMap_cons, List.filterMap_nil]
    simp only [sortPlanNewestFirst, List.foldr_cons, List.foldr_nil]
    norm_num [insertNewestFirst, ts_fixed_OSDXMB, ts_fixed_BOOT, ts_fixed_RANDOMFOLDER,
      ts_fixed_ZZZ_CUSTOM]

/-! ### Claim C7: determinism and time-zone independence -/

/-- C7: planning is a pure function of the configuration and the name —
the effective name, rank, slot and offset of a plan entry never depend on
the host time zone under either timeline; the full entry (including the
absolute instant) is time-zone independent under the fixed-anchor
strategy, and two forward-anchor runs in the same time zone agree
entirely. -/
theorem planning_deterministic (cfg : Config) (tl : Timeline) (tz1 tz2 : ℤ) (name : String) :
    ((plannedTimestampForFolder cfg tl tz1 name).effectiveName =
        (plannedTimestampForFolder cfg tl tz2 name).effectiveName ∧
      (plannedTimestampForFolder cfg tl tz1 name).catIdx =
        (plannedTimestampForFolder cfg tl tz2 name).catIdx ∧
      (plannedTimestampForFolder cfg tl tz1 name).slotIdx =
        (plannedTimestampForFolder cfg tl tz2 name).slotIdx ∧
      (plannedTimestampForFolder cfg tl tz1 name).offsetSec =
        (plannedTimestampForFolder cfg tl tz2 name).offsetSec) ∧
    plannedTimestampForFolder cfg .fixedUtc tz1 name =
      plannedTimestampForFolder cfg .fixedUtc tz2 name ∧
    (tz1 = tz2 →
      plannedTimestampForFolder cfg .localForward tz1 name =
        plannedTimestampForFolder cfg .localForward tz2 name) := by
  refine ⟨?_, rfl, fun h => by rw [h]⟩
  cases tl <;> exact ⟨rfl, rfl, rfl, rfl⟩

/-- Witness for C7 at the default configuration, the forward timeline,
two equal host offsets of one hour, and the name `"BOOT"`. -/
theorem planning_deterministic_witness :
    ((plannedTimestampForFolder defaultConfig .localForward 3600 "BOOT").effectiveName =
        (plannedTimestampForFolder defaultConfig .localForward 3600 "BOOT").effectiveName ∧
      (plannedTimestampForFolder defaultConfig .localForward 3600 "BOOT").catIdx =
        (plannedTimestampForFolder defaultConfig .localForward 3600 "BOOT").catIdx ∧
      (plannedTimestampForFolder defaultConfig .localForward 3600 "BOOT").slotIdx =
        (plannedTimestampForFolder defaultConfig .localForward 3600 "BOOT").slotIdx ∧
      (plannedTimestampForFolder defaultConfig .localForward 3600 "BOOT").offsetSec =
        (plannedTimestampForFolder defaultConfig .localForward 3600 "BOOT").offsetSec) ∧
    plannedTimestampForFolder defaultConfig .fixedUtc 3600 "BOOT" =
      plannedTimestampForFolder defaultConfig .fixedUtc 3600 "BOOT" ∧
    ((3600 : ℤ) = 3600 →
      plannedTimestampForFolder defaultConfig .localForward 3600 "BOOT" =
        plannedTimestampForFolder defaultConfig .localForward 3600 "BOOT") :=
  planning_deterministic defaultConfig .localForward 3600 3600 "BOOT"

/-! ### Claim C9: totality and injectivity of the category rank -/

set_option maxHeartbeats 1000000 in
lemma effectiveCategoryKey_mem (eff : String) : effectiveCategoryKey eff ∈ CATEGORY_ORDER := by
  unfold effectiveCategoryKey
  repeat' split
  all_goals decide

/-- C9: the classifier always returns a key of the fixed Category Order
(falling back to `DEFAULT`), so the `CATEGORY_INDEX` lookup behind
`_category_priority_index` succeeds for every effective name; and the
rank is injective over the declared category keys. -/
theorem category_lookup_total_injective :
    (∀ eff : String, (categoryIndexLookup (effectiveCategoryKey eff)).isSome = true) ∧
    (∀ k1 k2 : String, k1 ∈ CATEGORY_ORDER → k2 ∈ CATEGORY_ORDER →
      categoryIndexLookup k1 = categoryIndexLookup k2 → k1 = k2) := by
  constructor
  · intro eff
    have h := effectiveCategoryKey_mem eff
    generalize effectiveCategoryKey eff = k at h
    fin_cases h <;> decide
  · intro k1 k2 h1 h2
    fin_cases h1 <;> fin_cases h2 <;> decide

/-- Witness for C9 at the effective name `"RANDOMFOLDER"` (which falls
back to `DEFAULT`) and the member keys `"SYS_"`, `"ZZZ_"`. -/
theorem category_lookup_total_injective_witness :
    (categoryIndexLookup (effectiveCategoryKey "RANDOMFOLDER")).isSome = true ∧
    ("SYS_" ∈ CATEGORY_ORDER → "ZZZ_" ∈ CATEGORY_ORDER →
      categoryIndexLookup "SYS_" = categoryIndexLookup "ZZZ_" → "SYS_" = "ZZZ_") :=
  ⟨category_lookup_total_injective.1 "RANDOMFOLDER",
    category_lookup_total_injective.2 "SYS_" "ZZZ_"⟩

/-! ### Claim C10: per-name failure tolerance of the plan builder -/

/-- C10: if computing the entry of one name fails, the plan of the whole
run equals the plan of the same run without that name — the failing name
is skipped and every other name's entry is unchanged. -/
theorem plan_skips_failing_name (pre post : List String) (bad : String)
    (compute : String → Except String PlanResult) (err : String)
    (hbad : compute bad = .error err) :
    buildPlan (pre ++ bad :: post) compute = buildPlan (pre ++ post) compute := by
  simp [buildPlan, List.filterMap_append, List.filterMap_cons, hbad]

/-- A concrete fallible per-name computation: fails on `"BADNAME"`,
plans every other name with the defaults. -/
def crashingCompute : String → Except String PlanResult := fun n =>
  if n = "BADNAME" then .error "boom"
  else .ok (plannedTimestampForFolder defaultConfig .fixedUtc 0 n)

/-- Witness for C10: dropping the failing `"BADNAME"` from a three-name
run leaves exactly the plan of the two good names. -/
theorem plan_skips_failing_name_witness :
    crashingCompute "BADNAME" = .error "boom" ∧
    buildPlan (["OSDXMB"] ++ "BADNAME" :: ["BOOT"]) crashingCompute =
      buildPlan (["OSDXMB"] ++ ["BOOT"]) crashingCompute :=
  ⟨rfl, plan_skips_failing_name ["OSDXMB"] ["BOOT"] "BADNAME" crashingCompute "boom" rfl⟩

end Sas
